import Mathlib

/-!
Verification of the session/enrichment core of a Slack MCP gateway.

The definitions below are a shallow embedding of `src/slack-client.ts` and
`src/index.ts`: JavaScript objects become structures with `Option` fields,
the session-scoped `Map` caches become association lists, upstream HTTP
calls become explicit function parameters, and every issued upstream call is
recorded in a call log so that call-count properties can be stated.
JavaScript truthiness on strings (`undefined` and `""` are falsy) is modelled
by `jsTruthy`.
-/

namespace SlackMcp

/-- Truthiness of an optional string, as JavaScript evaluates it in an
`if`/`&&` position: absent and empty strings are falsy. -/
def jsTruthy : Option String → Bool
  | some s => s ≠ ""
  | none => false

/-- Lookup in an association list keyed by strings; models `Map.get` /
keyed access on a JavaScript object with unique keys. -/
def mapGet {β : Type} (k : String) : List (String × β) → Option β
  | [] => none
  | e :: rest => if e.1 = k then some e.2 else mapGet k rest

theorem mapGet_append_some {β : Type} {k : String} {l l' : List (String × β)} {v : β}
    (h : mapGet k l = some v) : mapGet k (l ++ l') = some v := by
  induction l with
  | nil => simp [mapGet] at h
  | cons e rest ih =>
    simp only [mapGet, List.cons_append] at h ⊢
    by_cases hk : e.1 = k
    · rwa [if_pos hk] at h ⊢
    · rw [if_neg hk] at h ⊢; exact ih h

theorem mapGet_append_none {β : Type} {k : String} {l l' : List (String × β)}
    (h : mapGet k l = none) : mapGet k (l ++ l') = mapGet k l' := by
  induction l with
  | nil => simp
  | cons e rest ih =>
    simp only [mapGet, List.cons_append] at h ⊢
    by_cases hk : e.1 = k
    · rw [if_pos hk] at h; exact absurd h (by simp)
    · rw [if_neg hk] at h ⊢; exact ih h

theorem mapGet_none_of_append_none {β : Type} {k : String} {l l' : List (String × β)}
    (h : mapGet k (l ++ l') = none) : mapGet k l = none := by
  cases hl : mapGet k l with
  | none => rfl
  | some v => rw [mapGet_append_some hl] at h; exact absurd h (by simp)

theorem mapGet_append_cases {β : Type} {k : String} {l l' : List (String × β)} {v : β}
    (h : mapGet k (l ++ l') = some v) :
    mapGet k l = some v ∨ (mapGet k l = none ∧ mapGet k l' = some v) := by
  cases hl : mapGet k l with
  | none => right; exact ⟨rfl, by rwa [mapGet_append_none hl] at h⟩
  | some w => left; rw [mapGet_append_some hl] at h; exact h

/-- A resolved user summary: the shape stored in the identity cache and
substituted into enriched records (`{id, name, display_name}` in the source;
the failure fallback `{id}` is the summary with both optional fields absent). -/
structure UserSummary where
  id : String
  name : Option String
  display_name : Option String
deriving DecidableEq, Repr

/-- The user object inside a successful `users.info` upstream response
(`data.user`), with the fields the client reads from it. -/
structure UpUser where
  id : String
  name : Option String
  display_name : Option String
deriving DecidableEq, Repr

/-- Behaviour of one upstream `users.info` lookup: a response with
`data.ok && data.user` truthy, a response without (`ok: false` or missing
user), or a thrown/rejected fetch. -/
inductive UsersInfoResult where
  | ok (user : UpUser)
  | notFound
  | err
deriving DecidableEq, Repr

/-- Session-scoped state of the Upstream Client: the identity cache
(`userCache` in the source) and the log of user ids for which a `users.info`
call was actually issued (instrumentation of the fake upstream). -/
structure ClientState where
  userCache : List (String × UserSummary)
  calls : List String
deriving DecidableEq, Repr

/-- Shallow embedding of `SlackClient.getUser`: return the cached entry if
present; otherwise issue one upstream lookup (recorded in `calls`); on an
`ok` response strip and cache the user; otherwise return the fallback
`{id: user_id}` without caching it; a thrown fetch propagates as an error. -/
def getUser (upstream : String → UsersInfoResult) (st : ClientState) (user_id : String) :
    Except Unit UserSummary × ClientState :=
  match mapGet user_id st.userCache with
  | some cached => (Except.ok cached, st)
  | none =>
    let st1 : ClientState := { st with calls := st.calls ++ [user_id] }
    match upstream user_id with
    | UsersInfoResult.err => (Except.error (), st1)
    | UsersInfoResult.ok u =>
      let stripped : UserSummary := ⟨u.id, u.name, u.display_name⟩
      (Except.ok stripped, { st1 with userCache := st1.userCache ++ [(user_id, stripped)] })
    | UsersInfoResult.notFound => (Except.ok ⟨user_id, none, none⟩, st1)

/-- A reaction on a message: the emoji name (standing for the fields the
spread `...reaction` preserves) and the optional list of reacting user ids. -/
structure Reaction where
  name : Option String
  users : Option (List String)
deriving DecidableEq, Repr

/-- An input message record: `ts` and `text` stand for the fields the spread
`...message` preserves; `user` is the optional top-level user id; `reactions`
the optional reaction list. -/
structure Message where
  ts : Option String
  text : Option String
  user : Option String
  reactions : Option (List Reaction)
deriving DecidableEq, Repr

/-- A reaction after enrichment: user ids replaced by summaries. -/
structure ReactionOut where
  name : Option String
  users : Option (List UserSummary)
deriving DecidableEq, Repr

/-- A message record after enrichment. -/
structure MessageOut where
  ts : Option String
  text : Option String
  user : Option UserSummary
  reactions : Option (List ReactionOut)
deriving DecidableEq, Repr

/-- `messages.map(m => m.user).filter(Boolean)`: the truthy top-level user
ids of the batch. -/
def messageUserIds (messages : List Message) : List String :=
  (messages.filterMap Message.user).filter (fun s => s ≠ "")

/-- `messages.flatMap(m => m.reactions || []).flatMap(r => r.users || [])`. -/
def reactionUserIds (messages : List Message) : List String :=
  ((messages.map (fun m => m.reactions.getD [])).flatten.map
      (fun r => r.users.getD [])).flatten

/-- `[...new Set([...messageUserIds, ...reactionUserIds])]`: the distinct
referenced user ids, first occurrences in order. -/
def allUserIds (messages : List Message) : List String :=
  (messageUserIds messages ++ reactionUserIds messages).eraseDups

/-- The barrier over the `Promise.all` fan-out: resolve each of the (distinct)
ids through `getUser`, threading the client state; a rejected lookup rejects
the whole batch. -/
def resolveAll (upstream : String → UsersInfoResult) :
    List String → ClientState → Except Unit Unit × ClientState
  | [], st => (Except.ok (), st)
  | id :: rest, st =>
    match getUser upstream st id with
    | (Except.error e, st') => (Except.error e, st')
    | (Except.ok _, st') => resolveAll upstream rest st'

/-- `this.userCache.get(id) || {id}`: the summary substituted for a user id
during the rewrite phase. -/
def summaryFor (cache : List (String × UserSummary)) (id : String) : UserSummary :=
  (mapGet id cache).getD ⟨id, none, none⟩

/-- The rewrite phase of `enrichMessages` for one record: replace a truthy
`user` field through the cache (falsy becomes `undefined`), and map each
reaction's user-id list element-wise through the cache. -/
def rewriteMsg (cache : List (String × UserSummary)) (m : Message) : MessageOut :=
  { ts := m.ts
    text := m.text
    user :=
      match m.user with
      | some u => if u ≠ "" then some (summaryFor cache u) else none
      | none => none
    reactions := m.reactions.map (fun rs => rs.map (fun r =>
      { name := r.name
        users := r.users.map (fun us => us.map (summaryFor cache)) })) }

/-- Shallow embedding of `SlackClient.enrichMessages`: collect the distinct
referenced user ids, resolve them all (filling the cache), then rewrite every
record against the filled cache. A rejection in the fan-out propagates. -/
def enrichMessages (upstream : String → UsersInfoResult) (messages : List Message)
    (st : ClientState) : Except Unit (List MessageOut) × ClientState :=
  match resolveAll upstream (allUserIds messages) st with
  | (Except.error e, st') => (Except.error e, st')
  | (Except.ok _, st') => (Except.ok (messages.map (rewriteMsg st'.userCache)), st')

theorem mapGet_mem {β : Type} {k : String} {l : List (String × β)} {v : β}
    (h : mapGet k l = some v) : (k, v) ∈ l := by
  induction l with
  | nil => simp [mapGet] at h
  | cons e rest ih =>
    simp only [mapGet] at h
    by_cases hk : e.1 = k
    · rw [if_pos hk] at h
      have : e = (k, v) := by
        cases e; cases h; cases hk; rfl
      rw [← this]; exact List.mem_cons_self _ _
    · rw [if_neg hk] at h; exact List.mem_cons_of_mem _ (ih h)

/-- Core bookkeeping of the fan-out: the call log and the cache only grow,
at most one call is issued per id, calls are only issued for initially
uncached ids, and every new cache entry comes from a successful (`ok`)
upstream response stripped to a summary. -/
theorem resolveAll_spec (upstream : String → UsersInfoResult) :
    ∀ (ids : List String) (st : ClientState),
    ∃ (newCalls : List String) (newCache : List (String × UserSummary)),
      (resolveAll upstream ids st).2.calls = st.calls ++ newCalls ∧
      (resolveAll upstream ids st).2.userCache = st.userCache ++ newCache ∧
      newCalls.length ≤ ids.length ∧
      (∀ i ∈ newCalls, mapGet i st.userCache = none) ∧
      (∀ e ∈ newCache, ∃ u, upstream e.1 = UsersInfoResult.ok u ∧
        e.2 = UserSummary.mk u.id u.name u.display_name) := by
  intro ids
  induction ids with
  | nil =>
    intro st
    exact ⟨[], [], by simp [resolveAll], by simp [resolveAll], by simp, by simp, by simp⟩
  | cons id rest ih =>
    intro st
    cases hc : mapGet id st.userCache with
    | some cached =>
      have hres : resolveAll upstream (id :: rest) st = resolveAll upstream rest st := by
        simp [resolveAll, getUser, hc]
      obtain ⟨nc, nk, h1, h2, h3, h4, h5⟩ := ih st
      exact ⟨nc, nk, by rw [hres]; exact h1, by rw [hres]; exact h2,
        Nat.le_succ_of_le h3, h4, h5⟩
    | none =>
      cases hu : upstream id with
      | err =>
        have hres : resolveAll upstream (id :: rest) st =
            (Except.error (), { st with calls := st.calls ++ [id] }) := by
          simp [resolveAll, getUser, hc, hu]
        refine ⟨[id], [], ?_, ?_, ?_, ?_, ?_⟩
        · rw [hres]
        · rw [hres]; simp
        · simp
        · intro i hi
          rcases List.mem_singleton.1 hi with h
          rw [h]; exact hc
        · intro e he; exact absurd he (List.not_mem_nil e)
      | ok u =>
        have hres : resolveAll upstream (id :: rest) st = resolveAll upstream rest
            ⟨st.userCache ++ [(id, UserSummary.mk u.id u.name u.display_name)],
              st.calls ++ [id]⟩ := by
          simp [resolveAll, getUser, hc, hu]
        obtain ⟨nc, nk, h1, h2, h3, h4, h5⟩ :=
          ih ⟨st.userCache ++ [(id, UserSummary.mk u.id u.name u.display_name)],
            st.calls ++ [id]⟩
        refine ⟨id :: nc, (id, UserSummary.mk u.id u.name u.display_name) :: nk,
          ?_, ?_, ?_, ?_, ?_⟩
        · rw [hres, h1]; simp
        · rw [hres, h2]; simp
        · simpa using Nat.succ_le_succ h3
        · intro i hi
          rcases List.mem_cons.1 hi with h | h
          · rw [h]; exact hc
          · exact mapGet_none_of_append_none (h4 i h)
        · intro e he
          rcases List.mem_cons.1 he with h | h
          · exact ⟨u, by rw [h]; exact hu, by rw [h]⟩
          · exact h5 e h
      | notFound =>
        have hres : resolveAll upstream (id :: rest) st = resolveAll upstream rest
            ⟨st.userCache, st.calls ++ [id]⟩ := by
          simp [resolveAll, getUser, hc, hu]
        obtain ⟨nc, nk, h1, h2, h3, h4, h5⟩ := ih ⟨st.userCache, st.calls ++ [id]⟩
        refine ⟨id :: nc, nk, ?_, ?_, ?_, ?_, ?_⟩
        · rw [hres, h1]; simp
        · rw [hres, h2]
        · simpa using Nat.succ_le_succ h3
        · intro i hi
          rcases List.mem_cons.1 hi with h | h
          · rw [h]; exact hc
          · exact h4 i h
        · exact h5

/-- The client state after `enrichMessages` is the state after its fan-out:
the rewrite phase touches neither the cache nor the call log. -/
theorem enrichMessages_state (upstream : String → UsersInfoResult)
    (messages : List Message) (st : ClientState) :
    (enrichMessages upstream messages st).2 =
      (resolveAll upstream (allUserIds messages) st).2 := by
  unfold enrichMessages
  cases h : resolveAll upstream (allUserIds messages) st with
  | mk fst snd => cases fst <;> simp

/-- Element-wise relation between two lists: same length, related at each
position. Captures order preservation positionally. -/
def ListRel {α β : Type} (R : α → β → Prop) : List α → List β → Prop
  | [], [] => True
  | a :: as, b :: bs => R a b ∧ ListRel R as bs
  | _, _ => False

theorem ListRel.map_self {α β : Type} (R : α → β → Prop) (f : α → β) :
    ∀ (l : List α), (∀ a ∈ l, R a (f a)) → ListRel R l (l.map f)
  | [], _ => trivial
  | a :: as, h =>
    ⟨h a (List.mem_cons_self a as),
      ListRel.map_self R f as (fun x hx => h x (List.mem_cons_of_mem a hx))⟩

/-- A cache is id-consistent when every entry stored under key `u` is a
summary whose `id` field is `u`. -/
def consistentCache (cache : List (String × UserSummary)) : Prop :=
  ∀ u s, mapGet u cache = some s → s.id = u

/-- An upstream is id-consistent when a successful `users.info` lookup for
`u` returns a user object whose `id` is `u` (as the real service does). -/
def idConsistentUpstream (upstream : String → UsersInfoResult) : Prop :=
  ∀ u d, upstream u = UsersInfoResult.ok d → d.id = u

theorem summaryFor_id {cache : List (String × UserSummary)}
    (hc : consistentCache cache) (id : String) : (summaryFor cache id).id = id := by
  unfold summaryFor
  cases h : mapGet id cache with
  | none => rfl
  | some s => simpa using hc id s h

/-- Resolving a batch of ids preserves cache id-consistency when the
upstream is id-consistent. -/
theorem resolveAll_consistent {upstream : String → UsersInfoResult}
    (hup : idConsistentUpstream upstream) {ids : List String} {st : ClientState}
    (hc : consistentCache st.userCache) :
    consistentCache ((resolveAll upstream ids st).2.userCache) := by
  obtain ⟨nc, nk, _, h2, _, _, h5⟩ := resolveAll_spec upstream ids st
  rw [h2]
  intro u s hs
  rcases mapGet_append_cases hs with h | ⟨_, h⟩
  · exact hc u s h
  · obtain ⟨d, hok, hstr⟩ := h5 (u, s) (mapGet_mem h)
    have hs2 : s = UserSummary.mk d.id d.name d.display_name := hstr
    rw [hs2]
    exact hup u d hok

/-- How one enriched reaction relates to its input: spread fields kept, and
the user-id list (when present) rewritten element-wise, in order, to
summaries whose `id` is the original identifier. -/
def ReactionRel (r : Reaction) (r' : ReactionOut) : Prop :=
  r'.name = r.name ∧
  (r.users = none → r'.users = none) ∧
  (∀ us, r.users = some us → ∃ us', r'.users = some us' ∧
    ListRel (fun id s => UserSummary.id s = id) us us')

/-- How one enriched record relates to its input: spread fields kept, an
absent (or JS-falsy) `user` stays absent, a present nonempty `user` id is
replaced by a summary carrying that id, and reactions are rewritten
element-wise in order. -/
def RecordRel (m : Message) (o : MessageOut) : Prop :=
  o.ts = m.ts ∧ o.text = m.text ∧
  (m.user = none → o.user = none) ∧
  (∀ u, m.user = some u → u ≠ "" → ∃ s, o.user = some s ∧ UserSummary.id s = u) ∧
  (m.reactions = none → o.reactions = none) ∧
  (∀ rs, m.reactions = some rs → ∃ rs', o.reactions = some rs' ∧
    ListRel ReactionRel rs rs')

theorem rewriteMsg_rel {cache : List (String × UserSummary)}
    (hc : consistentCache cache) (m : Message) : RecordRel m (rewriteMsg cache m) := by
  refine ⟨rfl, rfl, ?_, ?_, ?_, ?_⟩
  · intro h; simp [rewriteMsg, h]
  · intro u hu hne
    refine ⟨summaryFor cache u, ?_, summaryFor_id hc u⟩
    simp [rewriteMsg, hu, hne]
  · intro h; simp [rewriteMsg, h]
  · intro rs hrs
    refine ⟨rs.map (fun r =>
      ⟨r.name, r.users.map (fun us => us.map (summaryFor cache))⟩), ?_, ?_⟩
    · simp [rewriteMsg, hrs]
    · apply ListRel.map_self
      intro r _
      refine ⟨rfl, ?_, ?_⟩
      · intro h; simp [h]
      · intro us hus
        refine ⟨us.map (summaryFor cache), ?_, ?_⟩
        · simp [hus]
        · apply ListRel.map_self
          intro id _
          exact summaryFor_id hc id

/-- C1: for every batch, the enrichment fan-out issues at most one upstream
lookup per distinct referenced user identifier (`allUserIds`, the deduplicated
reference list), and every lookup it issues is for an identifier that was not
in the identity cache when the call began. -/
theorem enrich_at_most_distinct_lookups (upstream : String → UsersInfoResult)
    (messages : List Message) (st : ClientState) :
    (enrichMessages upstream messages st).2.calls.length ≤
      st.calls.length + (allUserIds messages).length ∧
    ∀ i, i ∈ (enrichMessages upstream messages st).2.calls →
      i ∈ st.calls ∨ mapGet i st.userCache = none := by
  obtain ⟨nc, nk, h1, _, h3, h4, _⟩ :=
    resolveAll_spec upstream (allUserIds messages) st
  rw [enrichMessages_state, h1]
  constructor
  · simpa using Nat.add_le_add_left h3 st.calls.length
  · intro i hi
    rcases List.mem_append.1 hi with h | h
    · exact Or.inl h
    · exact Or.inr (h4 i h)

/-- C2: a successful enrichment returns one output record per input record,
in the same order; spread fields are kept, a record without a (truthy) user
keeps none, a record with user id `u` gets a summary whose `id` is `u`, and
every reaction's user-id list is rewritten element-wise in order. -/
theorem enrich_shape_preserved (upstream : String → UsersInfoResult)
    (messages : List Message) (st : ClientState) (out : List MessageOut)
    (st' : ClientState)
    (hup : idConsistentUpstream upstream)
    (hc : consistentCache st.userCache)
    (hok : enrichMessages upstream messages st = (Except.ok out, st')) :
    out.length = messages.length ∧ ListRel RecordRel messages out := by
  have hcons : consistentCache ((resolveAll upstream (allUserIds messages) st).2.userCache) :=
    resolveAll_consistent hup hc
  unfold enrichMessages at hok
  cases hres : resolveAll upstream (allUserIds messages) st with
  | mk fst snd =>
    rw [hres] at hok hcons
    cases fst with
    | error e => exact absurd hok (by simp)
    | ok v =>
      simp only [Prod.mk.injEq, Except.ok.injEq] at hok
      obtain ⟨hout, _⟩ := hok
      rw [← hout]
      constructor
      · simp
      · exact ListRel.map_self RecordRel (rewriteMsg snd.userCache) messages
          (fun m _ => rewriteMsg_rel hcons m)

/-- A batch of distinct ids whose lookups all complete (none throws) resolves
without a rejection. -/
theorem resolveAll_ok (upstream : String → UsersInfoResult) :
    ∀ (ids : List String) (st : ClientState),
    (∀ id ∈ ids, upstream id ≠ UsersInfoResult.err) →
    (resolveAll upstream ids st).1 = Except.ok () := by
  intro ids
  induction ids with
  | nil => intro st _; rfl
  | cons id rest ih =>
    intro st h
    have hrest : ∀ i ∈ rest, upstream i ≠ UsersInfoResult.err :=
      fun i hi => h i (List.mem_cons_of_mem _ hi)
    cases hc : mapGet id st.userCache with
    | some cached =>
      have hres : resolveAll upstream (id :: rest) st = resolveAll upstream rest st := by
        simp [resolveAll, getUser, hc]
      rw [hres]; exact ih st hrest
    | none =>
      cases hu : upstream id with
      | err => exact absurd hu (h id (List.mem_cons_self _ _))
      | ok u =>
        have hres : resolveAll upstream (id :: rest) st = resolveAll upstream rest
            ⟨st.userCache ++ [(id, UserSummary.mk u.id u.name u.display_name)],
              st.calls ++ [id]⟩ := by
          simp [resolveAll, getUser, hc, hu]
        rw [hres]; exact ih _ hrest
      | notFound =>
        have hres : resolveAll upstream (id :: rest) st = resolveAll upstream rest
            ⟨st.userCache, st.calls ++ [id]⟩ := by
          simp [resolveAll, getUser, hc, hu]
        rw [hres]; exact ih _ hrest

/-- C4 (amended): when no required lookup throws, enrichment never rejects:
it returns one record per input, and an identifier whose lookup merely came
back not-ok/not-found degrades to the fallback summary carrying only the id. -/
theorem enrich_no_throw_degrades (upstream : String → UsersInfoResult)
    (messages : List Message) (st : ClientState)
    (herr : ∀ id ∈ allUserIds messages, upstream id ≠ UsersInfoResult.err) :
    ∃ out, (enrichMessages upstream messages st).1 = Except.ok out ∧
      out.length = messages.length ∧
      ListRel (fun m o => ∀ u, m.user = some u → u ≠ "" →
        mapGet u st.userCache = none → upstream u = UsersInfoResult.notFound →
        MessageOut.user o = some (UserSummary.mk u none none)) messages out := by
  have hok := resolveAll_ok upstream (allUserIds messages) st herr
  obtain ⟨nc, nk, _, h2, _, _, h5⟩ := resolveAll_spec upstream (allUserIds messages) st
  cases hres : resolveAll upstream (allUserIds messages) st with
  | mk fst snd =>
    rw [hres] at hok h2
    cases fst with
    | error e => exact absurd hok (by simp)
    | ok v =>
      have henr : enrichMessages upstream messages st =
          (Except.ok (messages.map (rewriteMsg snd.userCache)), snd) := by
        simp [enrichMessages, hres]
      refine ⟨messages.map (rewriteMsg snd.userCache), by rw [henr], by simp, ?_⟩
      apply ListRel.map_self
      intro m _ u hu hne hcn hnf
      have hnk : mapGet u nk = none := by
        cases hk : mapGet u nk with
        | none => rfl
        | some s =>
          obtain ⟨d, hok', _⟩ := h5 (u, s) (mapGet_mem hk)
          have hud : upstream u = UsersInfoResult.ok d := hok'
          rw [hnf] at hud
          exact absurd hud (by simp)
      have hsnd : mapGet u snd.userCache = none := by
        rw [h2, mapGet_append_none hcn]
        exact hnk
      simp [rewriteMsg, hu, hne, summaryFor, hsnd]

/-- Upstream stub that always reports the user as not found (a response with
`ok` false). -/
def upFailW : String → UsersInfoResult := fun _ => UsersInfoResult.notFound

/-- Upstream stub whose fetch always throws/rejects. -/
def upThrowW : String → UsersInfoResult := fun _ => UsersInfoResult.err

/-- Upstream stub that resolves every id successfully and consistently. -/
def upOkW : String → UsersInfoResult :=
  fun u => UsersInfoResult.ok ⟨u, some ("name-" ++ u), some "disp"⟩

/-- The fresh per-session client state: empty cache, no calls issued. -/
def stEmpty : ClientState := ⟨[], []⟩

def msgW1 : Message := ⟨some "100.1", some "hello", some "U1", none⟩

def msgW2 : Message := ⟨some "100.2", some "hey", some "U1",
  some [⟨some "+1", some ["U2", "U1"]⟩]⟩

def msgW3 : Message := ⟨some "100.3", none, none, none⟩

def sumW (u : String) : UserSummary := ⟨u, some ("name-" ++ u), some "disp"⟩

def outW : List MessageOut :=
  [⟨some "100.1", some "hello", some (sumW "U1"), none⟩,
    ⟨some "100.2", some "hey", some (sumW "U1"),
      some [⟨some "+1", some [sumW "U2", sumW "U1"]⟩]⟩,
    ⟨some "100.3", none, none, none⟩]

def stW : ClientState := ⟨[("U1", sumW "U1"), ("U2", sumW "U2")], ["U1", "U2"]⟩

/-- C3 counterexample: with an upstream that reports not-found, `getUser`
leaves the cache without an entry for the identifier, and a second resolution
of the same identifier issues a second upstream call (the call log grows to
two entries) — the fallback is returned but never cached. -/
theorem getUser_failure_not_cached :
    mapGet "U1" ((getUser upFailW stEmpty "U1").2.userCache) = none ∧
    (getUser upFailW ((getUser upFailW stEmpty "U1").2) "U1").2.calls = ["U1", "U1"] :=
  ⟨rfl, rfl⟩

/-- C3 (amended): when resolution of an uncached identifier returns
not-found, `getUser` returns the fallback summary `{id}` without storing it,
logging one upstream call; a second resolution returns a structurally
identical fallback but issues a second upstream call. -/
theorem getUser_failure_fallback (upstream : String → UsersInfoResult)
    (st : ClientState) (uid : String)
    (h1 : mapGet uid st.userCache = none)
    (h2 : upstream uid = UsersInfoResult.notFound) :
    (getUser upstream st uid).1 = Except.ok (UserSummary.mk uid none none) ∧
    (getUser upstream st uid).2.userCache = st.userCache ∧
    (getUser upstream st uid).2.calls = st.calls ++ [uid] ∧
    (getUser upstream ((getUser upstream st uid).2) uid).1 =
      Except.ok (UserSummary.mk uid none none) ∧
    (getUser upstream ((getUser upstream st uid).2) uid).2.calls =
      st.calls ++ [uid, uid] := by
  have hg : getUser upstream st uid =
      (Except.ok (UserSummary.mk uid none none),
        ⟨st.userCache, st.calls ++ [uid]⟩) := by
    simp [getUser, h1, h2]
  have hg2 : getUser upstream ⟨st.userCache, st.calls ++ [uid]⟩ uid =
      (Except.ok (UserSummary.mk uid none none),
        ⟨st.userCache, st.calls ++ [uid] ++ [uid]⟩) := by
    simp [getUser, h1, h2]
  refine ⟨by rw [hg], by rw [hg], by rw [hg], by rw [hg, hg2], ?_⟩
  rw [hg, hg2]
  simp

/-- Witness for the amended C3 at a concrete failing upstream. -/
theorem getUser_failure_fallback_witness :
    (getUser upFailW stEmpty "U1").1 = Except.ok (UserSummary.mk "U1" none none) ∧
    (getUser upFailW stEmpty "U1").2.userCache = stEmpty.userCache ∧
    (getUser upFailW stEmpty "U1").2.calls = stEmpty.calls ++ ["U1"] ∧
    (getUser upFailW ((getUser upFailW stEmpty "U1").2) "U1").1 =
      Except.ok (UserSummary.mk "U1" none none) ∧
    (getUser upFailW ((getUser upFailW stEmpty "U1").2) "U1").2.calls =
      stEmpty.calls ++ ["U1", "U1"] :=
  getUser_failure_fallback upFailW stEmpty "U1" rfl rfl

/-- C4 counterexample: a single record referencing one user whose upstream
fetch throws makes `enrichMessages` reject (propagate the exception) instead
of degrading to a fallback. -/
theorem enrich_throw_propagates :
    (enrichMessages upThrowW [msgW1] stEmpty).1 = Except.error () := rfl

/-- Witness for the amended C4: a not-found-only upstream lets enrichment of
a two-record batch complete, with the unresolved user degraded in place. -/
theorem enrich_no_throw_degrades_witness :
    ∃ out, (enrichMessages upFailW [msgW1, msgW3] stEmpty).1 = Except.ok out ∧
      out.length = [msgW1, msgW3].length ∧
      ListRel (fun m o => ∀ u, m.user = some u → u ≠ "" →
        mapGet u stEmpty.userCache = none → upFailW u = UsersInfoResult.notFound →
        MessageOut.user o = some (UserSummary.mk u none none)) [msgW1, msgW3] out :=
  enrich_no_throw_degrades upFailW [msgW1, msgW3] stEmpty (by decide)

/-- Witness for C1: three records referencing ids U1, U1, U2 (plus reaction
references) issue at most two lookups from a fresh state, and the lookup for
U1 is only explained by U1 being uncached. -/
theorem enrich_at_most_distinct_lookups_witness :
    ((enrichMessages upOkW [msgW1, msgW2, msgW3] stEmpty).2.calls.length ≤
      stEmpty.calls.length + (allUserIds [msgW1, msgW2, msgW3]).length) ∧
    ("U1" ∈ stEmpty.calls ∨ mapGet "U1" stEmpty.userCache = none) := by
  have h := enrich_at_most_distinct_lookups upOkW [msgW1, msgW2, msgW3] stEmpty
  exact ⟨h.1, h.2 "U1" (by decide)⟩

/-- Witness for C2 on a concrete batch: a successful enrichment of three
records (with duplicate and reaction references) preserves count, order and
ids. -/
theorem enrich_shape_preserved_witness :
    outW.length = [msgW1, msgW2, msgW3].length ∧
    ListRel RecordRel [msgW1, msgW2, msgW3] outW :=
  enrich_shape_preserved upOkW [msgW1, msgW2, msgW3] stEmpty outW stW
    (fun u d h => by simp only [upOkW] at h; cases h; rfl)
    (fun u s h => by simp [stEmpty, mapGet] at h)
    rfl

/-- A transport together with the per-session Upstream Client constructed at
initiation: `tid` models JavaScript object identity, `token` the credential
the session's SlackClient was bound to. -/
structure Transport where
  tid : Nat
  token : String
deriving DecidableEq, Repr

/-- The JSON-RPC error envelope of a rejected POST: HTTP status, numeric
JSON-RPC error code, and message (the response also carries `id: null`). -/
structure RpcError where
  status : Nat
  code : Int
  message : String
deriving DecidableEq, Repr

/-- Outcome of the POST route: forwarded to a transport (reused or freshly
constructed), or rejected with an error envelope. -/
inductive PostResult where
  | handled (t : Transport)
  | rejected (e : RpcError)
deriving DecidableEq, Repr

/-- Process-wide server state: the `transports` session table keyed by
session id, plus instrumentation — a fresh-identity counter and the number
of SlackClient constructions (the side-effecting counter of the spec's
scenario). -/
structure ServerState where
  transports : List (String × Transport)
  nextTid : Nat
  clientsConstructed : Nat
deriving DecidableEq, Repr

/-- An inbound POST as the handler reads it: the `mcp-session-id` header,
the body's `method` field, and the `x-slack-token` header. -/
structure McpRequest where
  sessionId : Option String
  bodyMethod : Option String
  slackToken : Option String
deriving DecidableEq, Repr

/-- Shallow embedding of the POST branch of `runHttpServer`: reuse the
transport of a live session id; otherwise, an `initialize` body without a
session id either is rejected 401 when the credential header is falsy or
constructs a client and transport and registers a fresh session; anything
else is rejected 400. The fresh session id stands for `randomUUID()`. -/
def handlePost (st : ServerState) (req : McpRequest) : PostResult × ServerState :=
  match (if jsTruthy req.sessionId then mapGet (req.sessionId.getD "") st.transports
         else none) with
  | some t => (PostResult.handled t, st)
  | none =>
    if !jsTruthy req.sessionId && (req.bodyMethod == some "initialize") then
      if !jsTruthy req.slackToken then
        (PostResult.rejected ⟨401, -32000, "Unauthorized: Missing X-Slack-Token header"⟩,
          st)
      else
        let t : Transport := ⟨st.nextTid, req.slackToken.getD ""⟩
        (PostResult.handled t,
          ⟨st.transports ++ [("session-" ++ toString st.nextTid, t)],
            st.nextTid + 1, st.clientsConstructed + 1⟩)
    else
      (PostResult.rejected ⟨400, -32000, "Bad Request: No valid session ID provided"⟩,
        st)

/-- Shallow embedding of the `transport.onclose` handler: when the transport
carries a (truthy) session id, delete that key from the session table. -/
def oncloseCleanup (tbl : List (String × Transport)) (sid? : Option String) :
    List (String × Transport) :=
  match sid? with
  | some sid => if sid ≠ "" then tbl.filter (fun p => p.1 ≠ sid) else tbl
  | none => tbl

theorem filter_idem {α : Type} (p : α → Bool) (l : List α) :
    (l.filter p).filter p = l.filter p := by
  induction l with
  | nil => rfl
  | cons a as ih =>
    by_cases h : p a = true
    · simp [List.filter_cons, h, ih]
    · simp [List.filter_cons, h, ih]

theorem mapGet_filter_ne {β : Type} {other sid : String} (h : other ≠ sid)
    (tbl : List (String × β)) :
    mapGet other (tbl.filter (fun p => p.1 ≠ sid)) = mapGet other tbl := by
  induction tbl with
  | nil => rfl
  | cons e rest ih =>
    by_cases he : e.1 = sid
    · have hne : ¬ (e.1 = other) := fun hh => h ((hh ▸ he : other = sid))
      simp only [List.filter_cons, he]
      rw [if_neg (by simp)]
      rw [ih]
      simp [mapGet, hne]
    · simp only [List.filter_cons]
      rw [if_pos (by simp [he])]
      simp only [mapGet]
      by_cases heo : e.1 = other
      · rw [if_pos heo, if_pos heo]
      · rw [if_neg heo, if_neg heo]; exact ih

/-- C5: a POST whose body is an `initialize` request, with no session-id
header and no credential header, is rejected with the 401 envelope carrying
JSON-RPC code -32000 and the missing-header message; the session table is
untouched, so any subsequent lookup behaves exactly as before (not-found on
every id when the table was empty). -/
theorem initiate_without_token_rejected (st : ServerState) (req : McpRequest)
    (hmethod : req.bodyMethod = some "initialize")
    (hsid : req.sessionId = none)
    (htoken : req.slackToken = none) :
    (handlePost st req).1 = PostResult.rejected
      ⟨401, -32000, "Unauthorized: Missing X-Slack-Token header"⟩ ∧
    (handlePost st req).2 = st ∧
    (∀ s, mapGet s (handlePost st req).2.transports = mapGet s st.transports) ∧
    (st.transports = [] → ∀ s, mapGet s (handlePost st req).2.transports = none) := by
  have h : handlePost st req = (PostResult.rejected
      ⟨401, -32000, "Unauthorized: Missing X-Slack-Token header"⟩, st) := by
    simp [handlePost, hmethod, hsid, htoken, jsTruthy]
  exact ⟨by rw [h], by rw [h], fun s => by rw [h],
    fun he s => by rw [h]; simp only [he]; rfl⟩

/-- C6: a POST that neither maps to a live session (unknown/stale truthy
session id) nor is a session-less `initialize` request is rejected with the
400 envelope carrying JSON-RPC code -32000 and the no-valid-session message,
and the server state is unchanged. -/
theorem invalid_session_rejected (st : ServerState) (req : McpRequest)
    (h : (jsTruthy req.sessionId = true ∧
            mapGet (req.sessionId.getD "") st.transports = none) ∨
         (jsTruthy req.sessionId = false ∧ req.bodyMethod ≠ some "initialize")) :
    (handlePost st req).1 = PostResult.rejected
      ⟨400, -32000, "Bad Request: No valid session ID provided"⟩ ∧
    (handlePost st req).2 = st := by
  have heq : handlePost st req = (PostResult.rejected
      ⟨400, -32000, "Bad Request: No valid session ID provided"⟩, st) := by
    rcases h with ⟨ht, hm⟩ | ⟨ht, hm⟩
    · simp [handlePost, ht, hm]
    · simp [handlePost, ht, hm]
  exact ⟨by rw [heq], by rw [heq]⟩

/-- C7: a POST carrying a session id that maps to a live session is routed to
exactly that session's stored transport (and hence its client); the result
state is the input state — no table mutation, no client construction. -/
theorem reuse_routes_existing (st : ServerState) (req : McpRequest)
    (sid : String) (t : Transport)
    (hsid : req.sessionId = some sid) (hne : sid ≠ "")
    (hfound : mapGet sid st.transports = some t) :
    handlePost st req = (PostResult.handled t, st) ∧
    (handlePost st req).2.transports = st.transports ∧
    (handlePost st req).2.clientsConstructed = st.clientsConstructed := by
  have heq : handlePost st req = (PostResult.handled t, st) := by
    simp [handlePost, hsid, jsTruthy, hne, hfound]
  exact ⟨heq, by rw [heq], by rw [heq]⟩

/-- C8: the onclose registry cleanup is idempotent — running it a second
time with the same transport session id leaves the table exactly as after
the first run, and it never touches entries of other sessions. -/
theorem onclose_idempotent (tbl : List (String × Transport)) (sid? : Option String) :
    oncloseCleanup (oncloseCleanup tbl sid?) sid? = oncloseCleanup tbl sid? ∧
    (∀ sid other, sid? = some sid → other ≠ sid →
      mapGet other (oncloseCleanup tbl sid?) = mapGet other tbl) := by
  constructor
  · cases sid? with
    | none => rfl
    | some sid =>
      by_cases h : sid = ""
      · simp [oncloseCleanup, h]
      · simp only [oncloseCleanup, if_pos (by exact h)]
        exact filter_idem _ tbl
  · intro sid other hs ho
    cases hs
    by_cases h : sid = ""
    · simp [oncloseCleanup, h]
    · simp only [oncloseCleanup, if_pos (by exact h)]
      exact mapGet_filter_ne ho tbl

def tW : Transport := ⟨0, "xoxb-token"⟩

def stSrv : ServerState := ⟨[("S1", tW)], 1, 1⟩

def reqInitNoToken : McpRequest := ⟨none, some "initialize", none⟩

def reqStale : McpRequest := ⟨some "S2", some "tools/call", none⟩

def reqReuse : McpRequest := ⟨some "S1", some "tools/call", none⟩

/-- Witness for C5 at a concrete credential-less initiation request. -/
theorem initiate_without_token_rejected_witness :
    (handlePost stSrv reqInitNoToken).1 = PostResult.rejected
      ⟨401, -32000, "Unauthorized: Missing X-Slack-Token header"⟩ ∧
    (handlePost stSrv reqInitNoToken).2 = stSrv ∧
    (∀ s, mapGet s (handlePost stSrv reqInitNoToken).2.transports =
      mapGet s stSrv.transports) ∧
    (stSrv.transports = [] →
      ∀ s, mapGet s (handlePost stSrv reqInitNoToken).2.transports = none) :=
  initiate_without_token_rejected stSrv reqInitNoToken rfl rfl rfl

/-- Witness for C6 at a concrete stale-session request. -/
theorem invalid_session_rejected_witness :
    (handlePost stSrv reqStale).1 = PostResult.rejected
      ⟨400, -32000, "Bad Request: No valid session ID provided"⟩ ∧
    (handlePost stSrv reqStale).2 = stSrv :=
  invalid_session_rejected stSrv reqStale (Or.inl ⟨by decide, by decide⟩)

/-- Witness for C7 at a concrete known-session request. -/
theorem reuse_routes_existing_witness :
    handlePost stSrv reqReuse = (PostResult.handled tW, stSrv) ∧
    (handlePost stSrv reqReuse).2.transports = stSrv.transports ∧
    (handlePost stSrv reqReuse).2.clientsConstructed = stSrv.clientsConstructed :=
  reuse_routes_existing stSrv reqReuse "S1" tW rfl (by decide) (by decide)

/-- Witness for C8 at a concrete table and closure id. -/
theorem onclose_idempotent_witness :
    (oncloseCleanup (oncloseCleanup [("S1", tW)] (some "S1")) (some "S1") =
      oncloseCleanup [("S1", tW)] (some "S1")) ∧
    mapGet "S2" (oncloseCleanup [("S1", tW)] (some "S1")) =
      mapGet "S2" [("S1", tW)] :=
  ⟨(onclose_idempotent [("S1", tW)] (some "S1")).1,
    (onclose_idempotent [("S1", tW)] (some "S1")).2 "S1" "S2" rfl (by decide)⟩

/-- Fields of the `conversations.open` upstream response that
`resolveChannel` reads. -/
structure OpenDMResponse where
  ok : Bool
  channelId : Option String
  error : Option String
deriving DecidableEq, Repr

/-- An upstream call issued by the posting path, in issue order. -/
inductive UpCall where
  | conversationsOpen (users : String)
  | chatPostMessage (channel : String) (text : String) (thread_ts : Option String)
deriving DecidableEq, Repr

/-- Opaque `chat.postMessage` response payload returned to the caller. -/
structure ChatPostResponse where
  ok : Bool
  ts : Option String
deriving DecidableEq, Repr

/-- Upstream behaviour available to the posting path. -/
structure PostEnv where
  openDM : String → OpenDMResponse
  post : String → String → Option String → ChatPostResponse

/-- JavaScript `x || dflt` for an optional string. -/
def jsOr (x : Option String) (dflt : String) : String :=
  match x with
  | some s => if s ≠ "" then s else dflt
  | none => dflt

/-- Shallow embedding of `SlackClient.resolveChannel`: a truthy `channel_id`
is returned directly with no upstream call; otherwise a truthy `user_id`
opens a DM via `conversations.open` (throwing on a failed open); otherwise
the either-or error is thrown. The second component logs the issued calls. -/
def resolveChannel (env : PostEnv) (channel_id user_id : Option String) :
    Except String String × List UpCall :=
  if jsTruthy channel_id then (Except.ok (channel_id.getD ""), [])
  else if jsTruthy user_id then
    let u := user_id.getD ""
    let d := env.openDM u
    if d.ok && jsTruthy d.channelId then
      (Except.ok (d.channelId.getD ""), [UpCall.conversationsOpen u])
    else
      (Except.error ("Failed to open DM with user " ++ u ++ ": " ++
        jsOr d.error "unknown error"), [UpCall.conversationsOpen u])
  else
    (Except.error "Either channel_id or user_id must be provided", [])

/-- Shallow embedding of `SlackClient.postMessage`: resolve the destination,
then issue one `chat.postMessage`; a resolution error propagates before any
message-posting call is made. -/
def postMessage (env : PostEnv) (channel_id : Option String) (text : String)
    (user_id : Option String) : Except String ChatPostResponse × List UpCall :=
  match resolveChannel env channel_id user_id with
  | (Except.error e, log) => (Except.error e, log)
  | (Except.ok ch, log) =>
    (Except.ok (env.post ch text none), log ++ [UpCall.chatPostMessage ch text none])

/-- Shallow embedding of `SlackClient.postReply`: like `postMessage` but the
issued `chat.postMessage` carries the `thread_ts`. -/
def postReply (env : PostEnv) (channel_id : Option String) (thread_ts : String)
    (text : String) (user_id : Option String) :
    Except String ChatPostResponse × List UpCall :=
  match resolveChannel env channel_id user_id with
  | (Except.error e, log) => (Except.error e, log)
  | (Except.ok ch, log) =>
    (Except.ok (env.post ch text (some thread_ts)),
      log ++ [UpCall.chatPostMessage ch text (some thread_ts)])

theorem resolveChannel_user (env : PostEnv) {u : String} (hu : u ≠ "") :
    resolveChannel env none (some u) =
      (if (env.openDM u).ok && jsTruthy (env.openDM u).channelId then
        (Except.ok ((env.openDM u).channelId.getD ""), [UpCall.conversationsOpen u])
      else
        (Except.error ("Failed to open DM with user " ++ u ++ ": " ++
          jsOr (env.openDM u).error "unknown error"), [UpCall.conversationsOpen u])) := by
  unfold resolveChannel
  rw [if_neg (by simp [jsTruthy]), if_pos (by simp [jsTruthy, hu])]
  rfl

/-- C9: for both posting operations — a provided (truthy) `channel_id` is
used directly and `conversations.open` is never issued even when `user_id`
is also supplied; a `user_id` alone resolves the DM channel through
`conversations.open`; and with neither argument the either-or error is
thrown with no upstream call at all (in particular no message posting). -/
theorem post_channel_resolution (env : PostEnv) (text thread_ts : String) :
    (∀ c user_id, c ≠ "" →
      (postMessage env (some c) text user_id).2 =
        [UpCall.chatPostMessage c text none] ∧
      (postReply env (some c) thread_ts text user_id).2 =
        [UpCall.chatPostMessage c text (some thread_ts)]) ∧
    (∀ u, u ≠ "" →
      (UpCall.conversationsOpen u ∈ (postMessage env none text (some u)).2 ∧
        UpCall.conversationsOpen u ∈ (postReply env none thread_ts text (some u)).2) ∧
      (((env.openDM u).ok && jsTruthy (env.openDM u).channelId) = true →
        (postMessage env none text (some u)).2 =
          [UpCall.conversationsOpen u,
            UpCall.chatPostMessage ((env.openDM u).channelId.getD "") text none])) ∧
    ((postMessage env none text none).1 =
        Except.error "Either channel_id or user_id must be provided" ∧
      (postMessage env none text none).2 = [] ∧
      (postReply env none thread_ts text none).1 =
        Except.error "Either channel_id or user_id must be provided" ∧
      (postReply env none thread_ts text none).2 = []) := by
  refine ⟨?_, ?_, ?_, ?_, ?_, ?_⟩
  · intro c user_id hc
    constructor
    · simp [postMessage, resolveChannel, jsTruthy, hc]
    · simp [postReply, resolveChannel, jsTruthy, hc]
  · intro u hu
    have hrc := resolveChannel_user env hu
    by_cases hd : ((env.openDM u).ok && jsTruthy (env.openDM u).channelId) = true
    · rw [if_pos hd] at hrc
      refine ⟨⟨?_, ?_⟩, ?_⟩
      · simp [postMessage, hrc]
      · simp [postReply, hrc]
      · intro _
        simp [postMessage, hrc]
    · rw [if_neg hd] at hrc
      refine ⟨⟨?_, ?_⟩, ?_⟩
      · simp [postMessage, hrc]
      · simp [postReply, hrc]
      · intro hcontra; exact absurd hcontra hd
  · simp [postMessage, resolveChannel, jsTruthy]
  · simp [postMessage, resolveChannel, jsTruthy]
  · simp [postReply, resolveChannel, jsTruthy]
  · simp [postReply, resolveChannel, jsTruthy]

def envW : PostEnv :=
  ⟨fun u => ⟨true, some ("D-" ++ u), none⟩, fun _ _ _ => ⟨true, some "111.222"⟩⟩

/-- Witness for C9 at a concrete upstream and concrete arguments. -/
theorem post_channel_resolution_witness :
    (postMessage envW (some "C1") "hi" (some "U9")).2 =
      [UpCall.chatPostMessage "C1" "hi" none] ∧
    UpCall.conversationsOpen "U9" ∈ (postMessage envW none "hi" (some "U9")).2 ∧
    (postMessage envW none "hi" none).1 =
      Except.error "Either channel_id or user_id must be provided" ∧
    (postMessage envW none "hi" none).2 = [] := by
  have h := post_channel_resolution envW "hi" "99.1"
  exact ⟨(h.1 "C1" (some "U9") (by decide)).1, (h.2.1 "U9" (by decide)).1.1,
    h.2.2.1, h.2.2.2.1⟩

/-- Query parameters sent by `getChannels` (`conversations.list`): the
requested limit passes through `Math.min(limit, 200)`, cursor and team_id
are appended only when truthy. -/
def getChannelsParams (limit : Int) (cursor team_id : Option String) :
    List (String × String) :=
  [("exclude_archived", "true"),
    ("types", "public_channel,private_channel"),
    ("limit", toString (min limit 200))] ++
  (if jsTruthy cursor then [("cursor", cursor.getD "")] else []) ++
  (if jsTruthy team_id then [("team_id", team_id.getD "")] else [])

/-- Query parameters sent by `getUsers` (`users.list`): same clamping. -/
def getUsersParams (limit : Int) (cursor team_id : Option String) :
    List (String × String) :=
  [("limit", toString (min limit 200))] ++
  (if jsTruthy cursor then [("cursor", cursor.getD "")] else []) ++
  (if jsTruthy team_id then [("team_id", team_id.getD "")] else [])

/-- C10: for both listing operations the limit sent upstream is
`min(limit, 200)`: above 200 it is clamped to 200, at or below 200
(including zero and negatives) it passes through unchanged. -/
theorem limit_clamped_at_200 (limit : Int) (cursor team_id : Option String) :
    mapGet "limit" (getChannelsParams limit cursor team_id) =
      some (toString (min limit 200)) ∧
    mapGet "limit" (getUsersParams limit cursor team_id) =
      some (toString (min limit 200)) ∧
    (200 < limit → toString (min limit 200) = "200") ∧
    (limit ≤ 200 → toString (min limit 200) = toString limit) := by
  refine ⟨?_, ?_, ?_, ?_⟩
  · simp [getChannelsParams, mapGet]
  · simp [getUsersParams, mapGet]
  · intro h
    rw [min_eq_right (le_of_lt h)]
    rfl
  · intro h
    rw [min_eq_left h]

/-- Witness for C10 at limits 250 and -5. -/
theorem limit_clamped_at_200_witness :
    mapGet "limit" (getChannelsParams 250 none none) =
      some (toString (min (250 : Int) 200)) ∧
    toString (min (250 : Int) 200) = "200" ∧
    toString (min (-5 : Int) 200) = toString (-5 : Int) := by
  have h1 := limit_clamped_at_200 250 none none
  have h2 := limit_clamped_at_200 (-5) none none
  exact ⟨h1.1, h1.2.2.1 (by decide), h2.2.2.2 (by decide)⟩

end SlackMcp
